import Mathlib

/-!
Verification of the computational core of the stock-analysis repository.

The Python sources are shallowly embedded over exact rational arithmetic:
pandas float cells become `Option ℚ` (`none` models a non-finite float,
i.e. NaN; in every evaluation below a non-finite value only ever arises
as NaN), machine floats become `ℚ`, and functions that the source guards
with try/except are embedded as total functions with explicit error
paths.  Each definition carries a comment naming the source function it
embeds.
-/

set_option allowUnsafeReducibility true in
attribute [semireducible] Rat.add Rat.sub Rat.mul Rat.inv

set_option maxRecDepth 8000

namespace StockAI

/-- The rounding of the source language's round builtin: nearest integer,
ties to even. -/
def roundHalfEven (q : ℚ) : ℤ :=
  if q - ⌊q⌋ < 1/2 then ⌊q⌋
  else if 1/2 < q - ⌊q⌋ then ⌊q⌋ + 1
  else if ⌊q⌋ % 2 = 0 then ⌊q⌋ else ⌊q⌋ + 1

/-- round(q, n): round to n decimal digits, ties to even. -/
def pyRound (q : ℚ) (n : ℕ) : ℚ :=
  (roundHalfEven (q * 10 ^ n) : ℚ) / 10 ^ n

/-- Trading signal: the values of a strategy-signal series
(the strings BUY / SELL / HOLD in the source). -/
inductive Sig where
  | BUY
  | SELL
  | HOLD
deriving DecidableEq, Repr

/-- One entry of the trade log produced by
src/backtesting/backtest_engine.py, BacktestEngine.backtest_strategy
(the date key carries no computational content and is omitted). -/
structure Trade where
  action : Sig
  shares : ℤ
  price : ℚ
  value : ℚ
deriving DecidableEq, Repr

/-- The mutable loop state of BacktestEngine.backtest_strategy:
the local variables capital, shares, trades, portfolio_values. -/
structure BtState where
  capital : ℚ
  shares : ℤ
  trades : List Trade
  pvs : List ℚ
deriving DecidableEq, Repr

/-- self.initial_capital = 100000 in BacktestEngine.__init__. -/
def initialCapital : ℚ := 100000

/-- Loop state before the first bar: capital = initial_capital,
shares = 0, empty trade log, empty portfolio-value record. -/
def initState : BtState := ⟨initialCapital, 0, [], []⟩

/-- The trade-execution part of one iteration of the bar loop in
BacktestEngine.backtest_strategy (lines 34-61): the BUY branch fires when
signal == BUY and capital > price, buying int(capital / price) shares if
that is positive; the SELL branch fires when signal == SELL and
shares > 0, selling everything.  int() truncates toward zero in the
source; on the only path where the quantity is used (the guard
0 < shares_to_buy) it is nonnegative, where truncation and ⌊·⌋ agree. -/
def execTrade (st : BtState) (price : ℚ) (signal : Sig) : BtState :=
  if signal = Sig.BUY ∧ price < st.capital then
    if 0 < ⌊st.capital / price⌋ then
      ⟨st.capital - (⌊st.capital / price⌋ : ℚ) * price,
        st.shares + ⌊st.capital / price⌋,
        st.trades ++ [⟨Sig.BUY, ⌊st.capital / price⌋, price,
          (⌊st.capital / price⌋ : ℚ) * price⟩],
        st.pvs⟩
    else st
  else if signal = Sig.SELL ∧ 0 < st.shares then
    ⟨st.capital + (st.shares : ℚ) * price, 0,
      st.trades ++ [⟨Sig.SELL, st.shares, price, (st.shares : ℚ) * price⟩],
      st.pvs⟩
  else st

/-- One full iteration of the bar loop: execute the trade for this bar,
then record portfolio_value = capital + shares * price (line 64). -/
def stepBar (st : BtState) (price : ℚ) (signal : Sig) : BtState :=
  let st1 := execTrade st price signal
  ⟨st1.capital, st1.shares, st1.trades,
    st1.pvs ++ [st1.capital + (st1.shares : ℚ) * price]⟩

/-- Run the bar loop over a list of (close, signal) pairs from a given
starting state. -/
def foldBars (st : BtState) (bars : List (ℚ × Sig)) : BtState :=
  bars.foldl (fun s b => stepBar s b.1 b.2) st

/-- Run the bar loop from the initial state. -/
def runBars (bars : List (ℚ × Sig)) : BtState := foldBars initState bars

/-- The result record of BacktestEngine.backtest_strategy.  The
sharpe_ratio key is omitted: no claim concerns it and its square root is
not rational-representable in general. -/
structure BtResult where
  initial_capital : ℚ
  final_value : ℚ
  total_return : ℚ
  buy_hold_return : ℚ
  total_trades : ℕ
  win_rate : ℚ
  portfolio_values : List ℚ
  trades : List Trade
  outperformed_buy_hold : Bool
deriving DecidableEq, Repr

/-- BacktestEngine._default_results. -/
def default_results : BtResult :=
  ⟨initialCapital, initialCapital, 0, 0, 0, 0, [], [], false⟩

/-- The unrounded buy-and-hold benchmark return of
BacktestEngine.backtest_strategy lines 71-74:
buy int(initial_capital / first close) whole shares at bar 0, value them
at the last close, and compare with the initial capital; the residual
cash left over from the purchase is not added back. -/
def rawBuyHoldReturn (closes : List ℚ) : ℚ :=
  ((⌊initialCapital / closes.headI⌋ : ℚ) * closes.getLastD 0 - initialCapital)
    / initialCapital * 100

/-- BacktestEngine.backtest_strategy.  Mirrors the source: the guard on
empty data / length mismatch returns _default_results; otherwise the bar
loop runs and the metric block (lines 67-95) is evaluated.  In the
winning-trades count the division initial_capital / len(buy trades) is
rational division; the source raises ZeroDivisionError only if a SELL
trade exists with no BUY trade, which is unreachable (see
c6_win_rate). -/
def backtest_strategy (closes : List ℚ) (signals : List Sig) : BtResult :=
  if closes = [] ∨ signals.length ≠ closes.length then default_results
  else
    let st := runBars (closes.zip signals)
    let finalValue := st.pvs.getLastD 0
    let totalReturn := (finalValue - initialCapital) / initialCapital * 100
    let buyHoldReturn := rawBuyHoldReturn closes
    let nBuys := (st.trades.filter (fun t => t.action == Sig.BUY)).length
    let nSells := (st.trades.filter (fun t => t.action == Sig.SELL)).length
    let winning := (st.trades.filter (fun t =>
        t.action == Sig.SELL && decide (initialCapital / (nBuys : ℚ) < t.value))).length
    let winRate := ((winning : ℚ) / ((max nSells 1 : ℕ) : ℚ)) * 100
    ⟨initialCapital, pyRound finalValue 2, pyRound totalReturn 2,
      pyRound buyHoldReturn 2, st.trades.length, pyRound winRate 2,
      st.pvs, st.trades, decide (buyHoldReturn < totalReturn)⟩

/-! ### Basic facts about the bar loop -/

theorem execTrade_pvs (st : BtState) (p : ℚ) (s : Sig) :
    (execTrade st p s).pvs = st.pvs := by
  unfold execTrade
  split_ifs <;> rfl

theorem execTrade_trades_extend (st : BtState) (p : ℚ) (s : Sig) :
    ∃ ts, (execTrade st p s).trades = st.trades ++ ts := by
  unfold execTrade
  split_ifs
  · exact ⟨_, rfl⟩
  · exact ⟨[], (List.append_nil _).symm⟩
  · exact ⟨_, rfl⟩
  · exact ⟨[], (List.append_nil _).symm⟩

theorem stepBar_capital (st : BtState) (p : ℚ) (s : Sig) :
    (stepBar st p s).capital = (execTrade st p s).capital := rfl

theorem stepBar_shares (st : BtState) (p : ℚ) (s : Sig) :
    (stepBar st p s).shares = (execTrade st p s).shares := rfl

theorem stepBar_trades (st : BtState) (p : ℚ) (s : Sig) :
    (stepBar st p s).trades = (execTrade st p s).trades := rfl

/-- Line 64 of the source: the value recorded for a bar is exactly
cash + shares * close of the state right after that bar's trade. -/
theorem stepBar_pvs (st : BtState) (p : ℚ) (s : Sig) :
    (stepBar st p s).pvs =
      st.pvs ++ [(stepBar st p s).capital + ((stepBar st p s).shares : ℚ) * p] := by
  simp [stepBar, execTrade_pvs]

/-- Trade execution keeps cash and the share count nonnegative, provided
the bar's close price is positive. -/
theorem execTrade_nonneg (st : BtState) (p : ℚ) (s : Sig) (hp : 0 < p)
    (hc : 0 ≤ st.capital) (hs : 0 ≤ st.shares) :
    0 ≤ (execTrade st p s).capital ∧ 0 ≤ (execTrade st p s).shares := by
  unfold execTrade
  split_ifs with h1 h2 h3
  · constructor
    · have hfl : (⌊st.capital / p⌋ : ℚ) ≤ st.capital / p := Int.floor_le _
      have hmul : (⌊st.capital / p⌋ : ℚ) * p ≤ st.capital / p * p :=
        mul_le_mul_of_nonneg_right hfl hp.le
      rw [div_mul_cancel₀ _ (ne_of_gt hp)] at hmul
      simpa using sub_nonneg.mpr hmul
    · have : (0 : ℤ) ≤ ⌊st.capital / p⌋ := le_of_lt h2
      simpa using add_nonneg hs this
  · exact ⟨hc, hs⟩
  · refine ⟨add_nonneg hc (mul_nonneg ?_ hp.le), le_refl 0⟩
    exact_mod_cast hs
  · exact ⟨hc, hs⟩

theorem foldBars_nil (st : BtState) : foldBars st [] = st := rfl

theorem foldBars_cons (st : BtState) (b : ℚ × Sig) (bs : List (ℚ × Sig)) :
    foldBars st (b :: bs) = foldBars (stepBar st b.1 b.2) bs := rfl

/-- Cash and share count stay nonnegative throughout a run over bars with
positive close prices. -/
theorem foldBars_nonneg :
    ∀ (bars : List (ℚ × Sig)) (st : BtState), (∀ b ∈ bars, 0 < b.1) →
      0 ≤ st.capital → 0 ≤ st.shares →
      0 ≤ (foldBars st bars).capital ∧ 0 ≤ (foldBars st bars).shares
  | [], _, _, hc, hs => ⟨hc, hs⟩
  | b :: bs, st, hpos, hc, hs => by
    have hstep := execTrade_nonneg st b.1 b.2 (hpos b (List.mem_cons_self _ _)) hc hs
    rw [foldBars_cons]
    exact foldBars_nonneg bs (stepBar st b.1 b.2)
      (fun x hx => hpos x (List.mem_cons_of_mem _ hx)) hstep.1 hstep.2

/-- The portfolio-value record of a run: one entry per bar, each equal to
cash + shares * close for the state reached right after that bar. -/
theorem foldBars_pvs :
    ∀ (bars : List (ℚ × Sig)) (st : BtState),
      (foldBars st bars).pvs = st.pvs ++ (List.range bars.length).map (fun i =>
        (foldBars st (bars.take (i + 1))).capital +
          ((foldBars st (bars.take (i + 1))).shares : ℚ) * (bars.getD i (0, Sig.HOLD)).1)
  | [], st => by simp [foldBars]
  | b :: bs, st => by
    have ih := foldBars_pvs bs (stepBar st b.1 b.2)
    rw [foldBars_cons, ih, stepBar_pvs, List.length_cons, List.range_succ_eq_map,
      List.map_cons, List.map_map, List.append_assoc]
    rfl

/-- On a nonempty series with matching signal length the guard of
backtest_strategy does not fire, and the recorded values are those of the
bar loop. -/
theorem backtest_portfolio_values (closes : List ℚ) (signals : List Sig)
    (hne : closes ≠ []) (hlen : signals.length = closes.length) :
    (backtest_strategy closes signals).portfolio_values =
      (runBars (closes.zip signals)).pvs := by
  unfold backtest_strategy
  rw [if_neg (by simp [hne, hlen])]

theorem backtest_trades (closes : List ℚ) (signals : List Sig)
    (hne : closes ≠ []) (hlen : signals.length = closes.length) :
    (backtest_strategy closes signals).trades =
      (runBars (closes.zip signals)).trades := by
  unfold backtest_strategy
  rw [if_neg (by simp [hne, hlen])]

/-- Claim C1: in every backtest run over a non-empty price series with a
signal series of equal length (and positive close prices), the recorded
portfolio value of each bar equals cash plus shares_held times that
bar's close price, and cash and shares_held are never negative at any
point of the run (the states after 0, 1, 2, ... bars). -/
theorem c1_backtest_invariant (closes : List ℚ) (signals : List Sig)
    (hpos : ∀ p ∈ closes, 0 < p) (hne : closes ≠ [])
    (hlen : signals.length = closes.length) :
    (backtest_strategy closes signals).portfolio_values.length = closes.length ∧
    (∀ k, 0 ≤ (runBars ((closes.zip signals).take k)).capital ∧
          0 ≤ (runBars ((closes.zip signals).take k)).shares) ∧
    ∀ i, i < closes.length →
      (backtest_strategy closes signals).portfolio_values.getD i 0 =
        (runBars ((closes.zip signals).take (i + 1))).capital +
          ((runBars ((closes.zip signals).take (i + 1))).shares : ℚ) *
            closes.getD i 0 := by
  have hpv := backtest_portfolio_values closes signals hne hlen
  have hzlen : (closes.zip signals).length = closes.length := by
    rw [List.length_zip, hlen, min_self]
  have hspec := foldBars_pvs (closes.zip signals) initState
  have hinit : initState.pvs = [] := rfl
  refine ⟨?_, ?_, ?_⟩
  · rw [hpv]
    show (foldBars initState _).pvs.length = _
    rw [hspec, hinit, List.nil_append, List.length_map, List.length_range, hzlen]
  · intro k
    apply foldBars_nonneg
    · intro b hb
      exact hpos b.1 (List.of_mem_zip (List.take_subset _ _ hb)).1
    · norm_num [initState, initialCapital]
    · exact le_refl _
  · intro i hi
    have hiz : i < (closes.zip signals).length := hzlen ▸ hi
    rw [hpv]
    show (foldBars initState _).pvs.getD i 0 = _
    rw [hspec, hinit, List.nil_append,
      List.getD_eq_getElem _ _ (by simpa [hzlen] using hi),
      List.getElem_map, List.getElem_range]
    have hz : (closes.zip signals).getD i (0, Sig.HOLD) =
        (closes.getD i 0, signals.getD i Sig.HOLD) := by
      rw [List.getD_eq_getElem _ _ hiz, List.getElem_zip,
        List.getD_eq_getElem _ _ hi, List.getD_eq_getElem _ _ (by omega : i < signals.length)]
    rw [hz]
    rfl

/-- Witness for c1_backtest_invariant at the concrete run
closes = [2, 4], signals = [BUY, SELL]. -/
theorem c1_backtest_invariant_witness :
    (backtest_strategy [2, 4] [Sig.BUY, Sig.SELL]).portfolio_values.length = 2 ∧
    0 ≤ (runBars (([(2 : ℚ), 4].zip [Sig.BUY, Sig.SELL]).take 1)).capital ∧
    (backtest_strategy [2, 4] [Sig.BUY, Sig.SELL]).portfolio_values.getD 0 0 =
      (runBars (([(2 : ℚ), 4].zip [Sig.BUY, Sig.SELL]).take 1)).capital +
        ((runBars (([(2 : ℚ), 4].zip [Sig.BUY, Sig.SELL]).take 1)).shares : ℚ) *
          ([(2 : ℚ), 4].getD 0 0) := by
  have h := c1_backtest_invariant [2, 4] [Sig.BUY, Sig.SELL]
    (by decide) (by decide) (by decide)
  exact ⟨h.1, (h.2.1 1).1, h.2.2 0 (by decide)⟩

/-! ### Claim C2: the BUY execution condition -/

/-- Claim C2 counterexample: on a single bar whose close price equals the
whole available cash (100000), a BUY signal executes no purchase, even
though cash ≥ price holds (with equality).  The engine's guard is the
strict comparison capital > price. -/
theorem c2_counterexample :
    initialCapital = 100000 ∧
    (backtest_strategy [100000] [Sig.BUY]).trades = [] ∧
    (backtest_strategy [100000] [Sig.BUY]).total_trades = 0 := by
  refine ⟨rfl, by decide, by decide⟩

/-- Claim C2 amended: at every state of the bar loop, a BUY signal
executes a purchase iff cash > price STRICTLY; when it executes it buys
⌊cash / price⌋ shares at their full cost, and when cash equals the price
exactly nothing happens. -/
theorem c2_buy_strict (st : BtState) (price : ℚ) (hp : 0 < price) :
    ((execTrade st price Sig.BUY).trades.length = st.trades.length + 1 ↔
      price < st.capital) ∧
    (price < st.capital →
      (execTrade st price Sig.BUY).trades = st.trades ++
        [⟨Sig.BUY, ⌊st.capital / price⌋, price,
          (⌊st.capital / price⌋ : ℚ) * price⟩]) ∧
    (st.capital = price → execTrade st price Sig.BUY = st) := by
  have hfloor : price < st.capital → 0 < ⌊st.capital / price⌋ := by
    intro h
    have h1 : (1 : ℚ) ≤ st.capital / price := by
      rw [le_div_iff₀ hp]
      simpa using h.le
    have := Int.le_floor.mpr (by exact_mod_cast h1 : ((1 : ℤ) : ℚ) ≤ st.capital / price)
    omega
  have hexec : price < st.capital →
      (execTrade st price Sig.BUY).trades = st.trades ++
        [⟨Sig.BUY, ⌊st.capital / price⌋, price,
          (⌊st.capital / price⌋ : ℚ) * price⟩] := by
    intro h
    unfold execTrade
    rw [if_pos ⟨rfl, h⟩, if_pos (hfloor h)]
  refine ⟨⟨?_, fun h => by rw [hexec h]; simp⟩, hexec, ?_⟩
  · intro hlen
    by_contra hnc
    have hid : execTrade st price Sig.BUY = st := by
      unfold execTrade
      rw [if_neg (by simp [hnc]), if_neg (by simp)]
    rw [hid] at hlen
    omega
  · intro heq
    unfold execTrade
    rw [if_neg (by simp [heq]), if_neg (by simp)]

/-- Witness for c2_buy_strict: from the initial state (cash 100000), a
BUY at price 2 executes and buys 50000 shares. -/
theorem c2_buy_strict_witness :
    (execTrade initState 2 Sig.BUY).trades.length = initState.trades.length + 1 ∧
    (execTrade initState 2 Sig.BUY).trades =
      initState.trades ++ [⟨Sig.BUY, 50000, 2, 100000⟩] := by
  have h := c2_buy_strict initState 2 (by norm_num)
  have hlt : (2 : ℚ) < initState.capital := by norm_num [initState, initialCapital]
  refine ⟨h.1.mpr hlt, ?_⟩
  rw [h.2.1 hlt]
  decide

/-! ### Claim C10: the buy-and-hold benchmark -/

/-- Claim C10 counterexample: for the constant price series [3, 3]
(3 does not divide 100000), the REPORTED buy-and-hold return is 0, not
strictly negative: the true loss of the residual-cash discard is
-0.001 %, and the report rounds it to two decimals. -/
theorem c10_counterexample :
    (100000 : ℤ) % 3 = 1 ∧
    rawBuyHoldReturn [3, 3] < 0 ∧
    (backtest_strategy [3, 3] [Sig.HOLD, Sig.HOLD]).buy_hold_return = 0 ∧
    ¬ (backtest_strategy [3, 3] [Sig.HOLD, Sig.HOLD]).buy_hold_return < 0 := by
  refine ⟨by decide, by decide, by decide, by decide⟩

theorem getLastD_replicate {α : Type} (p d : α) :
    ∀ n : ℕ, (List.replicate (n + 1) p).getLastD d = p
  | 0 => rfl
  | n + 1 => by
    rw [List.replicate_succ, List.getLastD_cons]
    exact getLastD_replicate p p n

theorem backtest_buy_hold_field (closes : List ℚ) (signals : List Sig)
    (hne : closes ≠ []) (hlen : signals.length = closes.length) :
    (backtest_strategy closes signals).buy_hold_return =
      pyRound (rawBuyHoldReturn closes) 2 := by
  unfold backtest_strategy
  rw [if_neg (by simp [hne, hlen])]

/-- Claim C10 amended: the buy-and-hold benchmark values only the whole
shares bought at bar 0 (⌊initial_capital / first close⌋ times the last
close) and discards the residual cash; for a constant close price that
does not evenly divide the initial capital the UNROUNDED buy-and-hold
return is strictly negative, and the reported value is that quantity
rounded to two decimals (which can round a small loss to 0, see
c10_counterexample). -/
theorem c10_buy_hold_residual (p : ℚ) (n : ℕ) (hp : 0 < p)
    (hnd : ¬ ∃ k : ℤ, (k : ℚ) * p = initialCapital) :
    rawBuyHoldReturn (List.replicate (n + 1) p) < 0 ∧
    (backtest_strategy (List.replicate (n + 1) p)
        (List.replicate (n + 1) Sig.HOLD)).buy_hold_return =
      pyRound (rawBuyHoldReturn (List.replicate (n + 1) p)) 2 := by
  have hhead : (List.replicate (n + 1) p).headI = p := by
    rw [List.replicate_succ]
    rfl
  have hlast : (List.replicate (n + 1) p).getLastD 0 = p :=
    getLastD_replicate p 0 n
  have hC : (0 : ℚ) < initialCapital := by norm_num [initialCapital]
  constructor
  · unfold rawBuyHoldReturn
    rw [hhead, hlast]
    have hle : (⌊initialCapital / p⌋ : ℚ) * p ≤ initialCapital := by
      have h1 : (⌊initialCapital / p⌋ : ℚ) ≤ initialCapital / p := Int.floor_le _
      have h2 := mul_le_mul_of_nonneg_right h1 hp.le
      rwa [div_mul_cancel₀ _ (ne_of_gt hp)] at h2
    have hlt : (⌊initialCapital / p⌋ : ℚ) * p < initialCapital :=
      lt_of_le_of_ne hle (fun hcon => hnd ⟨⌊initialCapital / p⌋, hcon⟩)
    have hneg : (⌊initialCapital / p⌋ : ℚ) * p - initialCapital < 0 :=
      sub_neg.mpr hlt
    have := div_neg_of_neg_of_pos hneg hC
    linarith
  · exact backtest_buy_hold_field _ _ (by simp) (by simp)

/-- Witness for c10_buy_hold_residual at p = 3, series length 2. -/
theorem c10_buy_hold_residual_witness :
    rawBuyHoldReturn (List.replicate 2 (3 : ℚ)) < 0 ∧
    (backtest_strategy (List.replicate 2 (3 : ℚ))
        (List.replicate 2 Sig.HOLD)).buy_hold_return =
      pyRound (rawBuyHoldReturn (List.replicate 2 (3 : ℚ))) 2 := by
  refine c10_buy_hold_residual 3 1 (by norm_num) ?_
  rintro ⟨k, hk⟩
  have hcast : ((k * 3 : ℤ) : ℚ) = ((100000 : ℤ) : ℚ) := by
    push_cast
    rw [hk]
    norm_num [initialCapital]
  have : (k * 3 : ℤ) = 100000 := Int.cast_injective hcast
  omega

/-! ### Claim C6: the win-rate formula -/

/-- A trade step preserves: whenever shares are held, or any trade has
been logged, the log contains at least one BUY.  (A SELL requires
shares > 0, which only a BUY can produce.) -/
theorem execTrade_buy_precedes (st : BtState) (p : ℚ) (s : Sig)
    (h1 : 0 < st.shares →
      0 < (st.trades.filter (fun t => t.action == Sig.BUY)).length)
    (h2 : st.trades ≠ [] →
      0 < (st.trades.filter (fun t => t.action == Sig.BUY)).length) :
    (0 < (execTrade st p s).shares →
      0 < ((execTrade st p s).trades.filter (fun t => t.action == Sig.BUY)).length) ∧
    ((execTrade st p s).trades ≠ [] →
      0 < ((execTrade st p s).trades.filter (fun t => t.action == Sig.BUY)).length) := by
  unfold execTrade
  split_ifs with hb hn hs
  · simp only [List.filter_append, List.length_append]
    have : (List.filter (fun t => t.action == Sig.BUY)
        [(⟨Sig.BUY, ⌊st.capital / p⌋, p, (⌊st.capital / p⌋ : ℚ) * p⟩ : Trade)]).length = 1 := by
      rfl
    omega
  · exact ⟨h1, h2⟩
  · simp only [List.filter_append, List.length_append]
    have hsell : (List.filter (fun t => t.action == Sig.BUY)
        [(⟨Sig.SELL, st.shares, p, (st.shares : ℚ) * p⟩ : Trade)]).length = 0 := by
      rfl
    have := h1 hs.2
    omega
  · exact ⟨h1, h2⟩

/-- The step invariant of execTrade_buy_precedes carried along a whole
run of the bar loop. -/
theorem foldBars_buy_precedes :
    ∀ (bars : List (ℚ × Sig)) (st : BtState),
      (0 < st.shares →
        0 < (st.trades.filter (fun t => t.action == Sig.BUY)).length) →
      (st.trades ≠ [] →
        0 < (st.trades.filter (fun t => t.action == Sig.BUY)).length) →
      (0 < (foldBars st bars).shares →
        0 < ((foldBars st bars).trades.filter (fun t => t.action == Sig.BUY)).length) ∧
      ((foldBars st bars).trades ≠ [] →
        0 < ((foldBars st bars).trades.filter (fun t => t.action == Sig.BUY)).length)
  | [], _, h1, h2 => ⟨h1, h2⟩
  | b :: bs, st, h1, h2 => by
    have hstep := execTrade_buy_precedes st b.1 b.2 h1 h2
    rw [foldBars_cons]
    exact foldBars_buy_precedes bs (stepBar st b.1 b.2) hstep.1 hstep.2

theorem backtest_win_rate_field (closes : List ℚ) (signals : List Sig)
    (hne : closes ≠ []) (hlen : signals.length = closes.length) :
    (backtest_strategy closes signals).win_rate =
      pyRound (((((runBars (closes.zip signals)).trades.filter (fun t =>
          t.action == Sig.SELL && decide (initialCapital /
            (((runBars (closes.zip signals)).trades.filter
              (fun t => t.action == Sig.BUY)).length : ℚ) < t.value))).length : ℚ) /
        ((max ((runBars (closes.zip signals)).trades.filter
            (fun t => t.action == Sig.SELL)).length 1 : ℕ) : ℚ)) * 100) 2 := by
  unfold backtest_strategy
  rw [if_neg (by simp [hne, hlen])]

/-- Claim C6: in every run that logs at least one trade, at least one
trade is a BUY (so the source's division by the number of BUY trades
cannot raise), and win_rate is 100 times the number of SELL trades whose
proceeds exceed initial_capital / (number of BUY trades), divided by the
number of SELL trades (denominator at least 1) — counted whole, then
rounded to two decimals for the report. -/
theorem c6_win_rate (closes : List ℚ) (signals : List Sig)
    (hne : closes ≠ []) (hlen : signals.length = closes.length)
    (htr : (backtest_strategy closes signals).trades ≠ []) :
    0 < ((backtest_strategy closes signals).trades.filter
        (fun t => t.action == Sig.BUY)).length ∧
    (backtest_strategy closes signals).win_rate =
      pyRound (((((backtest_strategy closes signals).trades.filter (fun t =>
          t.action == Sig.SELL && decide (initialCapital /
            (((backtest_strategy closes signals).trades.filter
              (fun t => t.action == Sig.BUY)).length : ℚ) < t.value))).length : ℚ) /
        ((max ((backtest_strategy closes signals).trades.filter
            (fun t => t.action == Sig.SELL)).length 1 : ℕ) : ℚ)) * 100) 2 := by
  have htrades := backtest_trades closes signals hne hlen
  rw [htrades] at htr ⊢
  constructor
  · exact (foldBars_buy_precedes (closes.zip signals) initState
      (by intro h; exact absurd h (by decide))
      (by intro h; exact absurd rfl h)).2 htr
  · exact backtest_win_rate_field closes signals hne hlen

/-- Witness for c6_win_rate at the run closes = [1, 2],
signals = [BUY, SELL]: one BUY and one winning SELL, win rate 100. -/
theorem c6_win_rate_witness :
    0 < ((backtest_strategy [1, 2] [Sig.BUY, Sig.SELL]).trades.filter
        (fun t => t.action == Sig.BUY)).length ∧
    (backtest_strategy [1, 2] [Sig.BUY, Sig.SELL]).win_rate = 100 := by
  have h := c6_win_rate [1, 2] [Sig.BUY, Sig.SELL] (by decide) (by decide) (by decide)
  refine ⟨h.1, ?_⟩
  rw [h.2]
  decide

/-! ### The orchestrator's decision matrix (claim C4) -/

/-- Technical signal of EnhancedTechnicalAnalyzer.calculate_technical_score
(the strings BULLISH / NEUTRAL / BEARISH). -/
inductive TSig where
  | BULLISH
  | NEUTRAL
  | BEARISH
deriving DecidableEq, Repr, Fintype

/-- Sentiment signal of EnhancedSentimentEngine.calculate_sentiment_score
(the strings POSITIVE / NEUTRAL / NEGATIVE). -/
inductive SSig where
  | POSITIVE
  | NEUTRAL
  | NEGATIVE
deriving DecidableEq, Repr, Fintype

/-- Risk level of RiskAssessor.calculate_risk_score
(the strings LOW / MODERATE / HIGH / VERY HIGH). -/
inductive RiskLevel where
  | LOW
  | MODERATE
  | HIGH
  | VERYHIGH
deriving DecidableEq, Repr, Fintype

/-- The six recommendation strings returned by
AnalysisOrchestrator._generate_overall_recommendation, identified by
their leading keyword. -/
inductive Recommendation where
  | strongBuy
  | buy
  | sell
  | holdHighRisk
  | holdNeutral
  | holdMixed
deriving DecidableEq, Repr, Fintype

/-- AnalysisOrchestrator._generate_overall_recommendation: the if/elif
chain of lines 89-100. -/
def generate_overall_recommendation (t : TSig) (s : SSig) (r : RiskLevel) :
    Recommendation :=
  if t = TSig.BULLISH ∧ s = SSig.POSITIVE ∧ r = RiskLevel.LOW then
    Recommendation.strongBuy
  else if t = TSig.BULLISH ∧ s ≠ SSig.NEGATIVE ∧
      (r = RiskLevel.LOW ∨ r = RiskLevel.MODERATE) then
    Recommendation.buy
  else if t = TSig.BEARISH ∧ s = SSig.NEGATIVE then
    Recommendation.sell
  else if r = RiskLevel.HIGH ∨ r = RiskLevel.VERYHIGH then
    Recommendation.holdHighRisk
  else if t = TSig.NEUTRAL ∧ s = SSig.NEUTRAL then
    Recommendation.holdNeutral
  else
    Recommendation.holdMixed

/-- Claim C4: for any three snapshots the recommendation is chosen by the
ordered decision matrix, evaluated top-to-bottom with the first match
winning: each outcome occurs exactly when its row matches and no earlier
row does. -/
theorem c4_decision_matrix :
    ∀ (t : TSig) (s : SSig) (r : RiskLevel),
      (generate_overall_recommendation t s r = Recommendation.strongBuy ↔
        (t = TSig.BULLISH ∧ s = SSig.POSITIVE ∧ r = RiskLevel.LOW)) ∧
      (generate_overall_recommendation t s r = Recommendation.buy ↔
        (¬(t = TSig.BULLISH ∧ s = SSig.POSITIVE ∧ r = RiskLevel.LOW) ∧
          (t = TSig.BULLISH ∧ s ≠ SSig.NEGATIVE ∧
            (r = RiskLevel.LOW ∨ r = RiskLevel.MODERATE)))) ∧
      (generate_overall_recommendation t s r = Recommendation.sell ↔
        (¬(t = TSig.BULLISH ∧ s = SSig.POSITIVE ∧ r = RiskLevel.LOW) ∧
          ¬(t = TSig.BULLISH ∧ s ≠ SSig.NEGATIVE ∧
            (r = RiskLevel.LOW ∨ r = RiskLevel.MODERATE)) ∧
          (t = TSig.BEARISH ∧ s = SSig.NEGATIVE))) ∧
      (generate_overall_recommendation t s r = Recommendation.holdHighRisk ↔
        (¬(t = TSig.BULLISH ∧ s = SSig.POSITIVE ∧ r = RiskLevel.LOW) ∧
          ¬(t = TSig.BULLISH ∧ s ≠ SSig.NEGATIVE ∧
            (r = RiskLevel.LOW ∨ r = RiskLevel.MODERATE)) ∧
          ¬(t = TSig.BEARISH ∧ s = SSig.NEGATIVE) ∧
          (r = RiskLevel.HIGH ∨ r = RiskLevel.VERYHIGH))) ∧
      (generate_overall_recommendation t s r = Recommendation.holdNeutral ↔
        (¬(t = TSig.BULLISH ∧ s = SSig.POSITIVE ∧ r = RiskLevel.LOW) ∧
          ¬(t = TSig.BULLISH ∧ s ≠ SSig.NEGATIVE ∧
            (r = RiskLevel.LOW ∨ r = RiskLevel.MODERATE)) ∧
          ¬(t = TSig.BEARISH ∧ s = SSig.NEGATIVE) ∧
          ¬(r = RiskLevel.HIGH ∨ r = RiskLevel.VERYHIGH) ∧
          (t = TSig.NEUTRAL ∧ s = SSig.NEUTRAL))) ∧
      (generate_overall_recommendation t s r = Recommendation.holdMixed ↔
        (¬(t = TSig.BULLISH ∧ s = SSig.POSITIVE ∧ r = RiskLevel.LOW) ∧
          ¬(t = TSig.BULLISH ∧ s ≠ SSig.NEGATIVE ∧
            (r = RiskLevel.LOW ∨ r = RiskLevel.MODERATE)) ∧
          ¬(t = TSig.BEARISH ∧ s = SSig.NEGATIVE) ∧
          ¬(r = RiskLevel.HIGH ∨ r = RiskLevel.VERYHIGH) ∧
          ¬(t = TSig.NEUTRAL ∧ s = SSig.NEUTRAL))) := by
  intro t s r
  cases t <;> cases s <;> cases r <;>
    exact ⟨by decide, by decide, by decide, by decide, by decide, by decide⟩

/-! ### Sentiment thresholds (claim C9) -/

/-- Sentiment label for one article, as classified by
SentimentAnalyzer.analyze_news_batch. -/
inductive Label where
  | positive
  | negative
  | neutral
deriving DecidableEq, Repr

/-- An analyzed article: its polarity score and its label.  The polarity
function itself (TextBlob over title + description) is the external
pluggable text-sentiment capability; an article is represented here by
its polarity score. -/
structure SentRecord where
  score : ℚ
  label : Label
deriving DecidableEq, Repr

/-- Per-article classification, sentiment_analyzer.py lines 43-48:
positive above 0.1, negative below -0.1, else neutral. -/
def sentLabel (s : ℚ) : Label :=
  if s > 1/10 then Label.positive
  else if s < -(1/10) then Label.negative
  else Label.neutral

/-- SentimentAnalyzer.analyze_news_batch over the polarity scores of a
news batch. -/
def analyze_news_batch (scores : List ℚ) : List SentRecord :=
  scores.map (fun s => ⟨s, sentLabel s⟩)

/-- The aggregate average_score of
SentimentAnalyzer.calculate_aggregate_sentiment: sum / count. -/
def averageScore (scores : List ℚ) : ℚ := scores.sum / scores.length

/-- The aggregate signal thresholds of
EnhancedSentimentEngine.calculate_sentiment_score lines 46-53:
POSITIVE above 0.2, NEGATIVE below -0.2, else NEUTRAL. -/
def sentimentSignal (avg : ℚ) : SSig :=
  if avg > 1/5 then SSig.POSITIVE
  else if avg < -(1/5) then SSig.NEGATIVE
  else SSig.NEUTRAL

/-- The signal of EnhancedSentimentEngine.calculate_sentiment_score for a
news batch: NEUTRAL for the empty batch (the early-out of lines 18-25),
else the thresholded mean of the analyzed articles' scores. -/
def calculate_sentiment_signal (scores : List ℚ) : SSig :=
  if scores = [] then SSig.NEUTRAL
  else sentimentSignal (averageScore ((analyze_news_batch scores).map
    (fun r => r.score)))

theorem analyze_news_batch_scores :
    ∀ scores : List ℚ, (analyze_news_batch scores).map (fun r => r.score) = scores
  | [] => rfl
  | s :: rest => by
    have ih := analyze_news_batch_scores rest
    simp only [analyze_news_batch, List.map_cons] at ih ⊢
    rw [ih]

/-- Claim C9: in every news batch each article is labeled positive above
polarity 0.1 and negative below -0.1, the aggregate signal is POSITIVE
only above mean 0.2 and NEGATIVE only below -0.2, and the per-article
thresholds are strictly looser than the aggregate ones: an aggregate
POSITIVE / NEGATIVE signal forces the matching label, while scores such
as ±0.15 get a positive / negative label but a NEUTRAL signal. -/
theorem c9_sentiment_thresholds :
    (∀ scores : List ℚ, ∀ r ∈ analyze_news_batch scores,
      (r.label = Label.positive ↔ 1/10 < r.score) ∧
      (r.label = Label.negative ↔ r.score < -(1/10))) ∧
    (∀ (s0 : ℚ) (rest : List ℚ),
      (calculate_sentiment_signal (s0 :: rest) = SSig.POSITIVE ↔
        1/5 < averageScore (s0 :: rest)) ∧
      (calculate_sentiment_signal (s0 :: rest) = SSig.NEGATIVE ↔
        averageScore (s0 :: rest) < -(1/5))) ∧
    (∀ q : ℚ, sentimentSignal q = SSig.POSITIVE → sentLabel q = Label.positive) ∧
    (∀ q : ℚ, sentimentSignal q = SSig.NEGATIVE → sentLabel q = Label.negative) ∧
    (sentLabel (3/20) = Label.positive ∧ sentimentSignal (3/20) = SSig.NEUTRAL) ∧
    (sentLabel (-(3/20)) = Label.negative ∧
      sentimentSignal (-(3/20)) = SSig.NEUTRAL) := by
  refine ⟨?_, ?_, ?_, ?_, by decide, by decide⟩
  · intro scores r hr
    obtain ⟨s, -, rfl⟩ := List.mem_map.mp hr
    show (sentLabel s = Label.positive ↔ 1/10 < s) ∧
      (sentLabel s = Label.negative ↔ s < -(1/10))
    unfold sentLabel
    split_ifs with h1 h2 <;>
      refine ⟨⟨fun hh => ?_, fun hh => ?_⟩, ⟨fun hh => ?_, fun hh => ?_⟩⟩ <;>
      first
        | rfl
        | assumption
        | exact absurd hh (by decide)
        | exact absurd hh (by linarith)
  · intro s0 rest
    have hne : (s0 :: rest) ≠ [] := by simp
    unfold calculate_sentiment_signal
    rw [if_neg hne, analyze_news_batch_scores]
    unfold sentimentSignal
    split_ifs with h1 h2 <;>
      refine ⟨⟨fun hh => ?_, fun hh => ?_⟩, ⟨fun hh => ?_, fun hh => ?_⟩⟩ <;>
      first
        | rfl
        | assumption
        | exact absurd hh (by decide)
        | exact absurd hh (by linarith)
  · intro q h
    by_cases h1 : q > 1/5
    · unfold sentLabel
      rw [if_pos (by linarith : q > 1/10)]
    · unfold sentimentSignal at h
      rw [if_neg h1] at h
      by_cases h2 : q < -(1/5)
      · rw [if_pos h2] at h
        exact absurd h (by decide)
      · rw [if_neg h2] at h
        exact absurd h (by decide)
  · intro q h
    by_cases h1 : q > 1/5
    · unfold sentimentSignal at h
      rw [if_pos h1] at h
      exact absurd h (by decide)
    · unfold sentimentSignal at h
      rw [if_neg h1] at h
      by_cases h2 : q < -(1/5)
      · unfold sentLabel
        rw [if_neg (by linarith : ¬ q > 1/10), if_pos (by linarith : q < -(1/10))]
      · rw [if_neg h2] at h
        exact absurd h (by decide)

/-- Witness for c9_sentiment_thresholds: the article with polarity 0.3 is
labeled positive, and a one-article batch with score 0.3 signals
POSITIVE. -/
theorem c9_sentiment_thresholds_witness :
    (⟨3/10, sentLabel (3/10)⟩ : SentRecord).label = Label.positive ∧
    calculate_sentiment_signal [(3 : ℚ)/10] = SSig.POSITIVE := by
  have h := c9_sentiment_thresholds
  constructor
  · exact (h.1 [3/10] ⟨3/10, sentLabel (3/10)⟩ (by simp [analyze_news_batch])).1.mpr
      (by norm_num)
  · exact ((h.2.1 (3/10) []).1).mpr (by norm_num [averageScore])

/-! ### Pandas-style series: cells, rolling windows, indicators -/

/-- A pandas float cell: some q for a finite value, none for a
non-finite one.  In the evaluations of this file a non-finite value only
ever arises as NaN (from an empty rolling window, or from the 0/0 of a
flat Bollinger band); comparisons against such a cell are false, exactly
as NaN comparisons are in the source. -/
abbrev Cell := Option ℚ

/-- Strict less-than on cells; false when either side is non-finite. -/
def oLt (a b : Cell) : Bool :=
  match a, b with
  | some x, some y => decide (x < y)
  | _, _ => false

/-- Strict greater-than on cells; false when either side is non-finite. -/
def oGt (a b : Cell) : Bool :=
  match a, b with
  | some x, some y => decide (y < x)
  | _, _ => false

/-- Cell subtraction; non-finite values propagate. -/
def cSub (a b : Cell) : Cell :=
  match a, b with
  | some x, some y => some (x - y)
  | _, _ => none

/-- Cell division; a non-finite operand or a zero denominator yields a
non-finite result (in the evaluations below the numerator is 0 whenever
the denominator is, so this is the NaN of the source). -/
def cDiv (a b : Cell) : Cell :=
  match a, b with
  | some x, some y => if y = 0 then none else some (x / y)
  | _, _ => none

/-- pandas Series.rolling(w).mean() over a series without missing
values: mean of the trailing w entries, NaN while the window is not yet
full. -/
def rollingMean (w : ℕ) (xs : List ℚ) : List Cell :=
  (List.range xs.length).map (fun i =>
    if w ≤ i + 1 then some (((xs.take (i + 1)).drop (i + 1 - w)).sum / w)
    else none)

/-- Integer square root, by linear search (the values it meets in this
file are tiny). -/
def natSqrtLin (n : ℕ) : ℕ :=
  ((List.range (n + 1)).filter (fun k => decide (k * k ≤ n))).getLastD 0

/-- Exact square root of a perfect rational square (numerator and
denominator both square).  Every rolling standard deviation actually
evaluated in this file is such a square. -/
def ratSqrt (q : ℚ) : ℚ :=
  (natSqrtLin q.num.toNat : ℚ) / (natSqrtLin q.den : ℚ)

/-- pandas Series.rolling(w).std(): sample standard deviation
(ddof = 1) of the trailing w entries, NaN while the window is not yet
full. -/
def rollingStd (w : ℕ) (xs : List ℚ) : List Cell :=
  (List.range xs.length).map (fun i =>
    if w ≤ i + 1 then
      some (ratSqrt ((((xs.take (i + 1)).drop (i + 1 - w)).map
        (fun x => (x - ((xs.take (i + 1)).drop (i + 1 - w)).sum / w) ^ 2)).sum
          / ((w : ℚ) - 1)))
    else none)

/-- Series.diff(): day-over-day deltas, NaN at index 0. -/
def diffSeries (xs : List ℚ) : List Cell :=
  (List.range xs.length).map (fun i =>
    if i = 0 then none else some (xs.getD i 0 - xs.getD (i - 1) 0))

/-- delta.where(delta > 0, 0): the positive deltas; a NaN condition
selects the replacement 0, as where does in the source. -/
def gainSeries (deltas : List Cell) : List ℚ :=
  deltas.map (fun c =>
    match c with
    | some x => if 0 < x then x else 0
    | none => 0)

/-- Minus delta.where(delta < 0, 0): the negated negative deltas. -/
def lossSeries (deltas : List Cell) : List ℚ :=
  deltas.map (fun c =>
    match c with
    | some x => if x < 0 then -x else 0
    | none => 0)

/-- The 1e-10 divide-by-zero guard of TechnicalIndicators.rsi. -/
def epsTen : ℚ := 1 / 10 ^ 10

/-- TechnicalIndicators.rsi (indicators.py): 14-period rolling means of
gains and losses over the close deltas, rs = gain / (loss + 1e-10),
rsi = 100 - 100 / (1 + rs). -/
def rsiSeries (prices : List ℚ) : List Cell :=
  List.zipWith (fun g l =>
    match g, l with
    | some g, some l => some (100 - 100 / (1 + g / (l + epsTen)))
    | _, _ => none)
    (rollingMean 14 (gainSeries (diffSeries prices)))
    (rollingMean 14 (lossSeries (diffSeries prices)))

/-- TechnicalIndicators.volume_analysis: volume / rolling(20)-mean of
volume, elementwise (the volumes of every series considered here are
positive, so a full-window mean is never 0). -/
def volumeRatioSeries (volume : List ℚ) : List Cell :=
  List.zipWith (fun v m =>
    match m with
    | some m => some (v / m)
    | none => none) volume (rollingMean 20 volume)

/-- The Unusual_Volume column: volume_ratio > 2 elementwise (false on a
NaN ratio). -/
def unusualSeries (volume : List ℚ) : List Bool :=
  (volumeRatioSeries volume).map (fun c => oGt c (some 2))

/-- The slice of a dataframe that the analyzers read: the raw Close and
Volume columns plus the indicator columns, each present (some) or absent
(none) from the frame.  RSI and SMA_20 are written by
TechnicalIndicators.analyze_stock; MA_20 is written only by the data
fetcher (collectors/data_fetcher.py). -/
structure Frame where
  close : List ℚ
  volume : List ℚ
  rsiCol : Option (List Cell)
  sma20Col : Option (List Cell)
  ma20Col : Option (List Cell)
  volRatioCol : Option (List Cell)
  unusualCol : Option (List Bool)
deriving DecidableEq, Repr

/-- TechnicalIndicators.analyze_stock: adds the SMA_20, RSI,
Volume_Ratio and Unusual_Volume columns computed from Close and Volume.
(The RSI_Signal label column only feeds insight strings and is not
modeled.)  Note that it writes SMA_20, never MA_20. -/
def analyze_stock (f : Frame) : Frame :=
  ⟨f.close, f.volume,
    some (rsiSeries f.close),
    some (rollingMean 20 f.close),
    f.ma20Col,
    some (volumeRatioSeries f.volume),
    some (unusualSeries f.volume)⟩

/-- BacktestEngine.generate_signals_from_analysis: every bar HOLD if the
frame lacks an RSI or an MA_20 column; otherwise bar 0 stays HOLD and
each bar from index 1 on is BUY when RSI < 30 and close < MA_20, SELL
when RSI > 70 and close > MA_20, and HOLD otherwise (a comparison
against a missing value is false). -/
def generate_signals_from_analysis (f : Frame) : List Sig :=
  match f.rsiCol, f.ma20Col with
  | some rsis, some mas =>
    (List.range f.close.length).map (fun i =>
      if i = 0 then Sig.HOLD
      else if oLt (rsis.getD i none) (some 30) &&
          oLt (some (f.close.getD i 0)) (mas.getD i none) then Sig.BUY
      else if oGt (rsis.getD i none) (some 70) &&
          oGt (some (f.close.getD i 0)) (mas.getD i none) then Sig.SELL
      else Sig.HOLD)
  | _, _ => List.replicate f.close.length Sig.HOLD

/-! ### Claim C3: signal generation and the MA_20 / SMA_20 mismatch -/

/-- A strictly decreasing 25-bar close series: 100, 99, ..., 76. -/
def decClose : List ℚ := (List.range 25).map (fun i => (100 : ℚ) - i)

/-- A constant positive volume series for the decreasing scenario. -/
def decVol : List ℚ := List.replicate 25 1000000

/-- The decreasing-series frame after the Indicator Library has run. -/
def decFrame : Frame := analyze_stock ⟨decClose, decVol, none, none, none, none, none⟩

/-- Claim C3 counterexample: on the decreasing 25-bar series the
Indicator Library has computed RSI and the 20-bar SMA (columns RSI and
SMA_20), and at bar 24 the claimed BUY condition RSI < 30 ∧
close < SMA20 holds — yet the generator emits HOLD on every bar,
because it looks for a column named MA_20, which the Indicator Library
never writes. -/
theorem c3_counterexample :
    (decFrame.rsiCol.isSome ∧ decFrame.sma20Col.isSome ∧ decFrame.ma20Col = none) ∧
    oLt ((decFrame.rsiCol.getD []).getD 24 none) (some 30) = true ∧
    oLt (some (decFrame.close.getD 24 0)) ((decFrame.sma20Col.getD []).getD 24 none) = true ∧
    generate_signals_from_analysis decFrame = List.replicate 25 Sig.HOLD := by
  refine ⟨by decide, by decide, by decide, by decide⟩

/-- Claim C3 amended: the generator requires columns named RSI and
MA_20; on a frame holding only the Indicator Library's columns (RSI,
SMA_20) every bar's signal is HOLD.  When both RSI and MA_20 are present
(the data fetcher writes MA_20), bar 0 is HOLD and each bar from index 1
onward follows the claimed rule — BUY when RSI < 30 and close < MA_20,
SELL when RSI > 70 and close > MA_20, HOLD otherwise, with bars lacking
an indicator value defaulting to HOLD. -/
theorem c3_signals_amended :
    (∀ f : Frame, f.rsiCol = none ∨ f.ma20Col = none →
      generate_signals_from_analysis f = List.replicate f.close.length Sig.HOLD) ∧
    (∀ (f : Frame) (rsis mas : List Cell),
      f.rsiCol = some rsis → f.ma20Col = some mas →
      (generate_signals_from_analysis f).length = f.close.length ∧
      (generate_signals_from_analysis f).getD 0 Sig.HOLD = Sig.HOLD ∧
      ∀ i, 1 ≤ i → i < f.close.length →
        (generate_signals_from_analysis f).getD i Sig.HOLD =
          (if oLt (rsis.getD i none) (some 30) &&
              oLt (some (f.close.getD i 0)) (mas.getD i none) then Sig.BUY
          else if oGt (rsis.getD i none) (some 70) &&
              oGt (some (f.close.getD i 0)) (mas.getD i none) then Sig.SELL
          else Sig.HOLD)) := by
  constructor
  · intro f h
    unfold generate_signals_from_analysis
    rcases hA : f.rsiCol with _ | rsis
    · rcases hB : f.ma20Col with _ | mas <;> rfl
    · rcases hB : f.ma20Col with _ | mas
      · rfl
      · rw [hA, hB] at h
        rcases h with h | h <;> cases h
  · intro f rsis mas hr hm
    have hgen : generate_signals_from_analysis f =
        (List.range f.close.length).map (fun i =>
          if i = 0 then Sig.HOLD
          else if oLt (rsis.getD i none) (some 30) &&
              oLt (some (f.close.getD i 0)) (mas.getD i none) then Sig.BUY
          else if oGt (rsis.getD i none) (some 70) &&
              oGt (some (f.close.getD i 0)) (mas.getD i none) then Sig.SELL
          else Sig.HOLD) := by
      unfold generate_signals_from_analysis
      rw [hr, hm]
    rw [hgen]
    refine ⟨by simp, ?_, ?_⟩
    · rcases hn : f.close.length with _ | n
      · rfl
      · rw [List.getD_eq_getElem _ _ (by simp), List.getElem_map,
          List.getElem_range, if_pos rfl]
    · intro i h1 h2
      rw [List.getD_eq_getElem _ _ (by simpa using h2), List.getElem_map,
        List.getElem_range, if_neg (by omega)]

/-- Witness for c3_signals_amended: a frame without MA_20 gets all-HOLD
signals, and a two-bar frame with RSI 10 and MA_20 5 gets a BUY at
bar 1. -/
theorem c3_signals_amended_witness :
    generate_signals_from_analysis ⟨[1, 2], [1, 1], none, none, none, none, none⟩ =
      List.replicate 2 Sig.HOLD ∧
    (generate_signals_from_analysis ⟨[1, 2], [1, 1], some [some 10, some 10],
        none, some [some 5, some 5], none, none⟩).getD 1 Sig.HOLD = Sig.BUY := by
  have h := c3_signals_amended
  constructor
  · exact h.1 _ (Or.inl rfl)
  · rw [(h.2 ⟨[1, 2], [1, 1], some [some 10, some 10], none,
      some [some 5, some 5], none, none⟩ _ _ rfl rfl).2.2 1 (le_refl 1) (by decide)]
    decide

/-! ### The technical scorer: MACD, Bollinger Bands, composite score -/

/-- pandas Series.ewm(span).mean() with its default adjust=True:
y_i = n_i / d_i where n_i = x_i + (1-α) n_(i-1), d_i = 1 + (1-α) d_(i-1)
and α = 2 / (span + 1). -/
def ewmMean (span : ℕ) (xs : List ℚ) : List ℚ :=
  (xs.foldl (fun acc x =>
    let n := x + (1 - 2 / ((span : ℚ) + 1)) * acc.1
    let d := 1 + (1 - 2 / ((span : ℚ) + 1)) * acc.2.1
    (n, d, acc.2.2 ++ [n / d])) ((0 : ℚ), (0 : ℚ), ([] : List ℚ))).2.2

/-- MACD trend label of EnhancedTechnicalAnalyzer.calculate_macd
(bullish / bearish, with neutral only from the except-branch). -/
inductive MTrend where
  | bullish
  | bearish
  | noTrend
deriving DecidableEq, Repr

/-- The result record of calculate_macd. -/
structure MacdResult where
  macd : ℚ
  signal : ℚ
  histogram : ℚ
  trend : MTrend
deriving DecidableEq, Repr

/-- EnhancedTechnicalAnalyzer.calculate_macd: EMA(12) − EMA(26), signal
line EMA(9) of the MACD line, histogram their difference, each reported
rounded to 4 digits; trend bullish iff macd > signal on the unrounded
last values, else bearish.  On the empty series the source's iloc[-1]
raises and the except-branch returns zeros with a neutral trend. -/
def calculate_macd (prices : List ℚ) : MacdResult :=
  if prices = [] then ⟨0, 0, 0, MTrend.noTrend⟩
  else
    let macdLine := List.zipWith (fun a b => a - b)
      (ewmMean 12 prices) (ewmMean 26 prices)
    let m := macdLine.getLastD 0
    let s := (ewmMean 9 macdLine).getLastD 0
    ⟨pyRound m 4, pyRound s 4, pyRound (m - s) 4,
      if s < m then MTrend.bullish else MTrend.bearish⟩

/-- Bollinger band signal of calculate_bollinger_bands. -/
inductive BSig where
  | overbought
  | oversold
  | inBand
deriving DecidableEq, Repr

/-- The result record of calculate_bollinger_bands. -/
structure BollResult where
  upper_band : Cell
  lower_band : Cell
  sma : Cell
  position : Cell
  signal : BSig
deriving DecidableEq, Repr

/-- EnhancedTechnicalAnalyzer.calculate_bollinger_bands: rolling SMA ±
2 rolling sample stddevs over the window; position =
(last close − lower) / (upper − lower) on the last bar, reported rounded
to 2 digits and NOT clamped; the band signal reads the unrounded
position (overbought above 0.8, oversold below 0.2, and a comparison on
a NaN position is false, giving neutral).  On the empty series iloc[-1]
raises and the except-branch returns the fixed default whose position is
0.5. -/
def calculate_bollinger_bands (prices : List ℚ) (window : ℕ) : BollResult :=
  if prices = [] then ⟨some 0, some 0, some 0, some (1/2), BSig.inBand⟩
  else
    let sma := rollingMean window prices
    let std := rollingStd window prices
    let upper := List.zipWith (fun s t =>
      match s, t with
      | some s, some t => some (s + t * 2)
      | _, _ => none) sma std
    let lower := List.zipWith (fun s t =>
      match s, t with
      | some s, some t => some (s - t * 2)
      | _, _ => none) sma std
    let position := cDiv
      (cSub (some (prices.getLastD 0)) (lower.getLastD none))
      (cSub (upper.getLastD none) (lower.getLastD none))
    ⟨(upper.getLastD none).map (fun q => pyRound q 2),
      (lower.getLastD none).map (fun q => pyRound q 2),
      (sma.getLastD none).map (fun q => pyRound q 2),
      position.map (fun q => pyRound q 2),
      if oGt position (some (4/5)) then BSig.overbought
      else if oLt position (some (1/5)) then BSig.oversold
      else BSig.inBand⟩

/-- The signals dict built by TechnicalIndicators.get_current_signals
from the last row of the frame. -/
structure CurSignals where
  rsiValue : ℚ
  priceAbove : Bool
  smaDistance : ℚ
  volUnusual : Bool
  volRatioLast : Cell
deriving DecidableEq, Repr

/-- TechnicalIndicators.get_current_signals: None when the frame has
fewer than 20 rows; a KeyError (modeled as Except.error) when the RSI or
SMA_20 column is absent; otherwise the last-row values with the source's
NaN guards — RSI value 50 when NaN, above = False and distance = 0 when
the SMA is NaN — and Unusual_Volume / Volume_Ratio read through .get
with defaults False and 1.0. -/
def get_current_signals (f : Frame) : Except Unit (Option CurSignals) :=
  if f.close.length < 20 then Except.ok none
  else
    match f.rsiCol, f.sma20Col with
    | some rsis, some smas =>
      Except.ok (some
        ⟨(rsis.getLastD none).getD 50,
          (match smas.getLastD none with
            | some s => decide (s < f.close.getLastD 0)
            | none => false),
          (match smas.getLastD none with
            | some s => (f.close.getLastD 0 / s - 1) * 100
            | none => 0),
          (f.unusualCol.map (fun l => l.getLastD false)).getD false,
          (f.volRatioCol.map (fun l => l.getLastD none)).getD (some 1)⟩)
    | _, _ => Except.error ()

/-- The result of calculate_technical_score: either the neutral default
dict {technical_score: 50, signal: NEUTRAL, confidence: 0} (which in the
source carries no further keys) or the full record. -/
inductive TechResult where
  | defaultRes
  | fullRes (technical_score : ℚ) (signal : TSig) (rsi : ℚ)
      (bbPosition : Cell) (macdTrend : MTrend) (confidence : ℚ)
deriving DecidableEq, Repr

/-- The technical_score key (50 in the default dict). -/
def TechResult.scoreOf : TechResult → ℚ
  | .defaultRes => 50
  | .fullRes s _ _ _ _ _ => s

/-- The signal key (NEUTRAL in the default dict). -/
def TechResult.signalOf : TechResult → TSig
  | .defaultRes => TSig.NEUTRAL
  | .fullRes _ sg _ _ _ _ => sg

/-- The confidence key (0 in the default dict). -/
def TechResult.confidenceOf : TechResult → ℚ
  | .defaultRes => 0
  | .fullRes _ _ _ _ _ c => c

/-- The reported Bollinger position (absent from the default dict). -/
def TechResult.bbPositionOf : TechResult → Cell
  | .defaultRes => none
  | .fullRes _ _ _ p _ _ => p

/-- EnhancedTechnicalAnalyzer.calculate_technical_score.  The source
wraps the body in try/except and returns the neutral default on an empty
frame, on a None from get_current_signals, and on any exception (such as
the KeyError of a missing indicator column); this embedding is total, so
"no exception escapes to the caller" holds by construction.  Otherwise
the weighted composite of the five sub-scores is computed and clamped to
[0, 100]: signal BULLISH above 70, BEARISH below 30, confidence the
distance from 50 scaled into [0, 1], and the reported score rounded to
one digit. -/
def calculate_technical_score (f : Frame) : TechResult :=
  if f.close = [] then TechResult.defaultRes
  else
    match get_current_signals f with
    | Except.error _ => TechResult.defaultRes
    | Except.ok none => TechResult.defaultRes
    | Except.ok (some sg) =>
      let rsi_score := 100 - |50 - sg.rsiValue| * 2
      let sma_score : ℚ :=
        if |sg.smaDistance| < 2 then 50
        else if sg.priceAbove then 80 else 20
      let volume_score : ℚ := if sg.volUnusual then 30 else 70
      let macd_data := calculate_macd f.close
      let bb_data := calculate_bollinger_bands f.close 20
      let macd_score := 50 + macd_data.histogram * 1000
      let bb_score : ℚ :=
        if bb_data.signal = BSig.inBand then 50
        else if bb_data.signal = BSig.overbought then 30 else 70
      let score0 := rsi_score * (25/100) + sma_score * (20/100) +
        volume_score * (15/100) + macd_score * (20/100) + bb_score * (20/100)
      let score := max 0 (min 100 score0)
      TechResult.fullRes (pyRound score 1)
        (if 70 < score then TSig.BULLISH
          else if score < 30 then TSig.BEARISH else TSig.NEUTRAL)
        sg.rsiValue bb_data.position macd_data.trend
        (min 1 (|score - 50| / 50))

/-! ### Claims C5, C7, C8: flat series, Bollinger position, failure policy -/

/-- Twenty-five flat price bars at 100. -/
def flatClose : List ℚ := List.replicate 25 100

/-- Constant volume for the flat scenario. -/
def flatVol : List ℚ := List.replicate 25 1000000

/-- The flat 25-bar frame after the Indicator Library has run. -/
def flatFrame : Frame := analyze_stock ⟨flatClose, flatVol, none, none, none, none, none⟩

/-- The flat frame with the data fetcher's MA_20 column also present. -/
def flatFrameMA : Frame :=
  ⟨flatClose, flatVol, some (rsiSeries flatClose), some (rollingMean 20 flatClose),
    some (rollingMean 20 flatClose), some (volumeRatioSeries flatVol),
    some (unusualSeries flatVol)⟩

/-- Claim C5 counterexample: on 25 flat bars the RSI at the last bar is
defined and equals exactly 0 (gains 0, losses 0, rs = 0/(0 + ε) = 0,
rsi = 100 − 100/1), so the not-NaN guard of get_current_signals never
substitutes 50: the scorer sees RSI value 0, which is not approximately
50 (it is at distance 50). -/
theorem c5_counterexample :
    (flatFrame.rsiCol.getD []).getD 24 none = some 0 ∧
    get_current_signals flatFrame =
      Except.ok (some ⟨0, false, 0, false, some 1⟩) ∧
    ¬ |(0 : ℚ) - 50| < 20 := by
  refine ⟨by decide, by rfl, by decide⟩

/-- Claim C5 amended: on 25 flat bars the RSI ε-guard yields exactly 0
(not ≈ 50); the technical signal is nevertheless NEUTRAL (composite
score 40.5), and replaying the generated signals produces zero trades —
both on the Indicator Library's own frame (all HOLD for lack of an MA_20
column) and on a frame that also carries the data fetcher's MA_20
column. -/
theorem c5_flat_series :
    (flatFrame.rsiCol.getD []).getD 24 none = some 0 ∧
    (calculate_technical_score flatFrame).signalOf = TSig.NEUTRAL ∧
    (backtest_strategy flatFrame.close
      (generate_signals_from_analysis flatFrame)).trades = [] ∧
    generate_signals_from_analysis flatFrameMA = List.replicate 25 Sig.HOLD ∧
    (backtest_strategy flatFrameMA.close
      (generate_signals_from_analysis flatFrameMA)).trades = [] ∧
    (backtest_strategy flatFrameMA.close
      (generate_signals_from_analysis flatFrameMA)).total_trades = 0 := by
  refine ⟨by decide, by decide, by decide, by decide, by decide, by decide⟩

/-- A 20-bar series whose last close lies above the upper Bollinger
band: mean 100, sample stddev exactly 2, bands [96, 104], last close
107. -/
def bbClose : List ℚ := [96, 97, 101, 99] ++ List.replicate 15 100 ++ [107]

/-- The mirrored series whose last close lies below the lower band. -/
def bbCloseLow : List ℚ := [104, 103, 99, 101] ++ List.replicate 15 100 ++ [93]

/-- Claim C7 counterexample: on bbClose the reported Bollinger position
is 1.38 — outside [0, 1] — so the returned position is not clamped. -/
theorem c7_counterexample :
    (calculate_bollinger_bands bbClose 20).position = some (69/50) ∧
    ¬ ((0 : ℚ) ≤ 69/50 ∧ (69/50 : ℚ) ≤ 1) := by
  refine ⟨by decide, by decide⟩

/-- Claim C7 amended: the returned band position is the raw ratio
(price − lower)/(upper − lower) rounded to two decimals, with no
clamping: it exceeds 1 when the last close lies above the upper band
(bbClose: 1.38, signal overbought) and falls below 0 when it lies below
the lower band (bbCloseLow: −0.38, signal oversold). -/
theorem c7_position_unclamped :
    (calculate_bollinger_bands bbClose 20).upper_band = some 104 ∧
    (calculate_bollinger_bands bbClose 20).lower_band = some 96 ∧
    (calculate_bollinger_bands bbClose 20).position = some (69/50) ∧
    (1 : ℚ) < 69/50 ∧
    (calculate_bollinger_bands bbClose 20).signal = BSig.overbought ∧
    (calculate_bollinger_bands bbCloseLow 20).position = some (-(19/50)) ∧
    (-(19/50) : ℚ) < 0 ∧
    (calculate_bollinger_bands bbCloseLow 20).signal = BSig.oversold := by
  refine ⟨by decide, by decide, by decide, by decide, by decide, by decide,
    by decide, by decide⟩

/-- Claim C8 counterexample: the flat 25-bar series has at least 20 bars
and an undefined (NaN) Bollinger position — an undefined required
indicator value — yet the scorer does NOT return the neutral default: it
returns the computed record with score 40.5 and confidence 0.19. -/
theorem c8_counterexample :
    20 ≤ flatFrame.close.length ∧
    (calculate_technical_score flatFrame).bbPositionOf = none ∧
    (calculate_technical_score flatFrame).scoreOf = 81/2 ∧
    (calculate_technical_score flatFrame).confidenceOf = 19/100 ∧
    calculate_technical_score flatFrame ≠ TechResult.defaultRes := by
  refine ⟨by decide, by decide, by decide, by decide, by decide⟩

/-- Claim C8 amended: for every frame with fewer than 20 bars (the empty
and the single-bar frame included) the technical scorer returns exactly
the neutral default {technical_score: 50, signal: NEUTRAL,
confidence: 0}, and likewise whenever the RSI or SMA_20 indicator COLUMN
is absent (the caught KeyError); the embedding is a total function, so
no exception reaches the caller.  An undefined individual indicator
VALUE on a ≥ 20-bar frame does not trigger the default (see
c8_counterexample). -/
theorem c8_failure_policy :
    (∀ f : Frame, f.close.length < 20 →
      calculate_technical_score f = TechResult.defaultRes) ∧
    (∀ f : Frame, f.rsiCol = none ∨ f.sma20Col = none →
      calculate_technical_score f = TechResult.defaultRes) := by
  constructor
  · intro f h
    unfold calculate_technical_score
    by_cases hc : f.close = []
    · rw [if_pos hc]
    · rw [if_neg hc]
      have hsig : get_current_signals f = Except.ok none := by
        unfold get_current_signals
        rw [if_pos h]
      rw [hsig]
  · intro f h
    unfold calculate_technical_score
    by_cases hc : f.close = []
    · rw [if_pos hc]
    · rw [if_neg hc]
      by_cases hlen : f.close.length < 20
      · have hsig : get_current_signals f = Except.ok none := by
          unfold get_current_signals
          rw [if_pos hlen]
        rw [hsig]
      · have hsig : get_current_signals f = Except.error () := by
          unfold get_current_signals
          rw [if_neg hlen]
          rcases hA : f.rsiCol with _ | rsis
          · rcases hB : f.sma20Col with _ | smas <;> rfl
          · rcases hB : f.sma20Col with _ | smas
            · rfl
            · rw [hA, hB] at h
              rcases h with h | h <;> cases h
        rw [hsig]

/-- Witness for c8_failure_policy: the single-bar frame and a 20-bar
frame without indicator columns both get the neutral default. -/
theorem c8_failure_policy_witness :
    calculate_technical_score ⟨[100], [1], none, none, none, none, none⟩ =
      TechResult.defaultRes ∧
    calculate_technical_score
        ⟨List.replicate 20 100, List.replicate 20 1, none, none, none, none, none⟩ =
      TechResult.defaultRes := by
  exact ⟨c8_failure_policy.1 _ (by decide), c8_failure_policy.2 _ (Or.inl rfl)⟩

end StockAI
